import Mathlib

/-!
Verification of `execute_test/main.py` (a ROS2 velocity test node).

The node publishes `geometry_msgs/Twist` messages on the `cmd_vel` topic.
We embed the program shallowly:

* a `Twist` is a record of six rational scalars (floats become `ℚ`);
* the command channel (`cmd_vel_publisher`) is modelled by the list of
  messages published, in order;
* wall time is idealised: `time.sleep(s)` advances the clock by exactly
  `s`, so at the `k`-th check of the publish loop's condition the value of
  `time.time() - start_time` is `k * sleep_time`;
* cancellation (the `is_publishing` flag being observed `False`) is an
  external parameter `cancelAt : Option ℕ`: `some c` means the flag reads
  `False` from the `c`-th loop check on, `none` means it stays `True`;
* an exception raised by `cmd_vel_publisher.publish` is modelled in a
  second, fallible variant where `failAt : Option ℕ` gives the index of
  the publish call that raises.
-/

namespace VelocityTest

/-- `geometry_msgs/Twist`: six scalar fields (linear.x/y/z, angular.x/y/z). -/
structure Twist where
  linx : ℚ
  liny : ℚ
  linz : ℚ
  angx : ℚ
  angy : ℚ
  angz : ℚ
deriving DecidableEq, Repr

/-- The twist built by lines 43–48 of `publish_velocity`: only `linear.x`
and `angular.z` are set from the arguments, the other four fields are
assigned `0.0`. -/
def mkTwist (linear_vel angular_vel : ℚ) : Twist :=
  { linx := linear_vel, liny := 0, linz := 0, angx := 0, angy := 0, angz := angular_vel }

/-- The `stop_msg` built in `stop_robot` (lines 77–83): a fresh `Twist()`
with every field assigned `0.0`. -/
def stop_msg : Twist :=
  { linx := 0, liny := 0, linz := 0, angx := 0, angy := 0, angz := 0 }

/-- The node's mutable state read or written by the methods we model:
`self.is_publishing` and `self.twist_msg`. -/
structure NodeState where
  is_publishing : Bool
  twist_msg : Twist
deriving DecidableEq, Repr

/-- `stop_robot` (lines 73–88): builds the all-zero `stop_msg` and publishes
it 5 times (`for _ in range(5)`).  It reads none of the node's mutable
state, so the published list ignores `st`. -/
def stop_robot (_st : NodeState) : List Twist :=
  List.replicate 5 stop_msg

/-- The condition of the publish loop (line 61),
`while (time.time() - start_time) < duration and self.is_publishing`,
at its `k`-th evaluation under the ideal clock: elapsed time is
`k * sleep_time` with `sleep_time = 1.0 / 10`, and `is_publishing` reads
`True` iff cancellation has not yet occurred. -/
def loopCond (duration : ℚ) (cancelAt : Option ℕ) (k : ℕ) : Prop :=
  (k : ℚ) * (1 / 10) < duration ∧ ∀ c, cancelAt = some c → k < c

instance (duration : ℚ) (cancelAt : Option ℕ) (k : ℕ) :
    Decidable (loopCond duration cancelAt k) := by
  unfold loopCond
  exact instDecidableAnd

/-- The number of iterations the publish loop performs: the loop body runs
at checks `0, 1, …` while `loopCond` holds, and `loopCond` is antitone in
`k`, so the iteration count is the least `k` refuting it:
`⌈duration * 10⌉₊`, capped by the cancellation index.
`loopCond_iff_lt_loopCount` grounds this closed form in the loop condition. -/
def loopCount (duration : ℚ) (cancelAt : Option ℕ) : ℕ :=
  match cancelAt with
  | none => ⌈duration * 10⌉₊
  | some c => min ⌈duration * 10⌉₊ c

theorem loopCond_iff_lt_loopCount (duration : ℚ) (cancelAt : Option ℕ) (k : ℕ) :
    loopCond duration cancelAt k ↔ k < loopCount duration cancelAt := by
  have hcast : ((k : ℚ) * (1 / 10) < duration) ↔ (k : ℚ) < duration * 10 := by
    constructor <;> intro h <;> nlinarith
  cases cancelAt with
  | none =>
      simp only [loopCond, loopCount, Option.some.injEq]
      constructor
      · rintro ⟨h1, -⟩
        exact Nat.lt_ceil.mpr (hcast.mp h1)
      · intro h
        refine ⟨hcast.mpr (Nat.lt_ceil.mp h), ?_⟩
        intro c hc
        cases hc
  | some c =>
      simp only [loopCond, loopCount, Option.some.injEq, lt_min_iff]
      constructor
      · rintro ⟨h1, h2⟩
        exact ⟨Nat.lt_ceil.mpr (hcast.mp h1), h2 c rfl⟩
      · rintro ⟨h1, h2⟩
        exact ⟨hcast.mpr (Nat.lt_ceil.mp h1), fun c' hc' => by cases hc'; exact h2⟩

/-- `publish_velocity` (lines 36–71), error-free runs, under the ideal
clock.  Sets the six fields of `self.twist_msg` (lines 43–48), publishes
that one message once per loop iteration, then calls `stop_robot`, then
prints the measured elapsed time `time.time() - start_time` (line 69).
The result is `(published messages, printed elapsed time)`.  The loop runs
`loopCount` iterations, each `publish` followed by `sleep(0.1)`, so the
loop leaves the clock at `loopCount / 10`; `stop_robot`'s five
`sleep(0.1)` calls add `5 * (1/10)` before line 69 reads the clock.
`publish_velocity` itself returns `None` in the source; the elapsed value
is only printed. -/
def publish_velocity (linear_vel angular_vel duration : ℚ) (cancelAt : Option ℕ) :
    List Twist × ℚ :=
  let n := loopCount duration cancelAt
  (List.replicate n (mkTwist linear_vel angular_vel) ++ stop_robot ⟨true, mkTwist linear_vel angular_vel⟩,
    (n : ℚ) * (1 / 10) + 5 * (1 / 10))

/-- `publish_velocity` with the node state threaded explicitly: line 40
sets `is_publishing := True` unconditionally — the method never inspects
the prior state and never rejects a call — and line 71 resets it to
`False`; lines 43–48 overwrite every field of `twist_msg`. -/
def publish_velocityS (_st : NodeState) (linear_vel angular_vel duration : ℚ)
    (cancelAt : Option ℕ) : NodeState × List Twist × ℚ :=
  (⟨false, mkTwist linear_vel angular_vel⟩,
    publish_velocity linear_vel angular_vel duration cancelAt)

/-- One publish call on a fallible channel: `sendAll failAt i msgs`
publishes `msgs` in order, the call for the `j`-th message carrying global
publish index `i + j`; the call whose index equals `failAt` raises, which
in the source propagates out of the enclosing method at once.  The result
carries the successfully published messages, tagged `ok` when every call
returned and `error` when one raised. -/
def sendAll (failAt : Option ℕ) : ℕ → List Twist → Except (List Twist) (List Twist)
  | _, [] => Except.ok []
  | i, m :: ms =>
    if failAt = some i then Except.error []
    else
      match sendAll failAt (i + 1) ms with
      | Except.ok rest => Except.ok (m :: rest)
      | Except.error sent => Except.error (m :: sent)

/-- The messages a fallible run actually delivered to the channel. -/
def sentMessages : Except (List Twist) (List Twist) → List Twist
  | Except.ok l => l
  | Except.error l => l

/-- `publish_velocity` over the fallible channel.  The source wraps neither
the loop (lines 61–63) nor `stop_robot` in `try/finally`: an exception
raised by `cmd_vel_publisher.publish` propagates immediately, so when a
loop publish raises, `stop_robot` (line 66) is never reached. -/
def publish_velocity_fallible (linear_vel angular_vel duration : ℚ)
    (cancelAt failAt : Option ℕ) : Except (List Twist) (List Twist) :=
  let n := loopCount duration cancelAt
  let msg := mkTwist linear_vel angular_vel
  match sendAll failAt 0 (List.replicate n msg) with
  | Except.error sent => Except.error sent
  | Except.ok sentTicks =>
    match sendAll failAt n (stop_robot ⟨true, msg⟩) with
    | Except.error sentStops => Except.error (sentTicks ++ sentStops)
    | Except.ok stops => Except.ok (sentTicks ++ stops)

/-- `main` (lines 221–237): the `try`-body's outcome. `interrupted` is the
`KeyboardInterrupt` swallowed by the `except` clause; `fatal` is any other
exception escaping the body. -/
inductive MainOutcome
  | normal
  | interrupted
  | fatal
deriving DecidableEq, Repr

/-- The process-level command trace of `main` (lines 221–237):
`bodyTrace` is whatever the body published before terminating with
outcome `o`; the `finally` block runs on all three outcomes and, when the
node was created (`if 'node' in locals()`), calls `node.stop_robot()`. -/
def main_run (nodeCreated : Bool) (bodyTrace : List Twist) (_o : MainOutcome) :
    List Twist :=
  if nodeCreated then bodyTrace ++ stop_robot ⟨false, stop_msg⟩ else bodyTrace

/-- The two test modes `self.test_mode` ranges over in the main loop. -/
inductive Mode
  | linear
  | angular
deriving DecidableEq, Repr

/-- The motion command a session publishes each tick, as fixed by the call
sites in `user_interface`: `publish_velocity(velocity, 0.0, duration)` for
linear mode (line 186) and `publish_velocity(0.0, velocity, duration)` for
angular mode (line 199), combined with lines 43–48. -/
def sessionCommand : Mode → ℚ → Twist
  | Mode.linear, m => mkTwist m 0
  | Mode.angular, m => mkTwist 0 m

/-- One test session as `user_interface` runs it (lines 180–202): the
worker thread executes `publish_velocity` with the mode's argument order
and is joined before anything else happens. -/
def runSession (mode : Mode) (velocity duration : ℚ) (cancelAt : Option ℕ) :
    List Twist × ℚ :=
  match mode with
  | Mode.linear => publish_velocity velocity 0 duration cancelAt
  | Mode.angular => publish_velocity 0 velocity duration cancelAt

/-- One line typed at a prompt: `num q` is a line Python's `float()`
parses to the value `q`; `text isYes` is a non-numeric line, `isYes`
recording whether it strips and lowercases to `y` or `yes` (the only
datum any prompt extracts from a non-numeric line). -/
inductive ConsoleInput
  | num (q : ℚ)
  | text (isYes : Bool)
deriving DecidableEq, Repr

/-- Outcome of the parameter collector: `accepted velocity duration`
models `return velocity, duration`; `interrupted` models the
`KeyboardInterrupt` handler's `return None, None` (also used when the
input stream is exhausted). -/
inductive CollectResult
  | accepted (velocity duration : ℚ)
  | interrupted
deriving DecidableEq, Repr

/-- `get_linear_test_parameters` (lines 117–139) and
`get_angular_test_parameters` (lines 141–163), which differ only in their
prompt strings: loop; read a velocity line (`float()` raising `ValueError`
on a non-numeric line restarts the loop); read a duration line (same); if
`duration <= 0`, restart the loop — both values are collected afresh on
the next iteration; otherwise return the pair.  Returns the result and
the unconsumed input lines. -/
def get_test_parameters : List ConsoleInput → CollectResult × List ConsoleInput
  | [] => (CollectResult.interrupted, [])
  | ConsoleInput.text _ :: rest => get_test_parameters rest
  | [ConsoleInput.num _] => (CollectResult.interrupted, [])
  | ConsoleInput.num _ :: ConsoleInput.text _ :: rest => get_test_parameters rest
  | ConsoleInput.num v :: ConsoleInput.num d :: rest =>
    if d ≤ 0 then get_test_parameters rest else (CollectResult.accepted v d, rest)

/-- The check at line 210, `continue_choice not in ['y', 'yes']`: only a
non-numeric line lowercasing to `y`/`yes` continues the loop. -/
def isYes : ConsoleInput → Bool
  | ConsoleInput.num _ => false
  | ConsoleInput.text b => b

theorem get_test_parameters_rest_length (inputs : List ConsoleInput) :
    (get_test_parameters inputs).2.length ≤ inputs.length := by
  induction inputs using get_test_parameters.induct with
  | case1 => simp [get_test_parameters]
  | case2 b rest ih =>
      simp only [get_test_parameters, List.length_cons]
      omega
  | case3 => simp [get_test_parameters]
  | case4 v b rest ih =>
      simp only [get_test_parameters, List.length_cons]
      omega
  | case5 v d rest h ih =>
      simp only [get_test_parameters, if_pos h, List.length_cons]
      omega
  | case6 v d rest h =>
      simp only [get_test_parameters, if_neg h, List.length_cons]
      omega

/-- The main testing loop of `user_interface` (lines 178–214) for a fixed
`self.test_mode`, driven by the remaining console lines: collect
parameters (a `None` result breaks the loop); run the session's worker
thread and join it; read the continue answer, breaking unless it is
`y`/`yes` (an exhausted stream models `KeyboardInterrupt` at a prompt,
which also breaks).  The value is the full list of messages published on
`cmd_vel` by the loop. -/
def user_interface (mode : Mode) (inputs : List ConsoleInput) : List Twist :=
  match h : get_test_parameters inputs with
  | (CollectResult.interrupted, _) => []
  | (CollectResult.accepted v d, rest) =>
    match rest with
    | [] => (runSession mode v d none).1
    | ans :: rest2 =>
      if isYes ans then
        (runSession mode v d none).1 ++ user_interface mode rest2
      else
        (runSession mode v d none).1
termination_by inputs.length
decreasing_by
  have hlen : (get_test_parameters inputs).2.length ≤ inputs.length :=
    get_test_parameters_rest_length inputs
  rw [h] at hlen
  simp only [List.length_cons] at hlen
  omega

/-- At most one of the two controllable velocity components is non-zero. -/
def atMostOneNZ (t : Twist) : Prop :=
  t.linx = 0 ∨ t.angz = 0

/-- Exactly one of the two controllable velocity components is non-zero. -/
def exactlyOneNZ (t : Twist) : Prop :=
  (t.linx ≠ 0 ∧ t.angz = 0) ∨ (t.linx = 0 ∧ t.angz ≠ 0)

/-- A contiguous block of messages produced by one complete session in
mode `mode`: some number of identical command ticks followed by the full
five-message stop sequence. -/
def isSessionBlock (mode : Mode) (b : List Twist) : Prop :=
  ∃ n m, b = List.replicate n (sessionCommand mode m) ++ List.replicate 5 stop_msg

theorem runSession_fst (mode : Mode) (v d : ℚ) (c : Option ℕ) :
    (runSession mode v d c).1 =
      List.replicate (loopCount d c) (sessionCommand mode v) ++
        List.replicate 5 stop_msg := by
  cases mode <;>
    simp [runSession, publish_velocity, sessionCommand, stop_robot]

theorem sendAll_none (i : ℕ) (msgs : List Twist) :
    sendAll none i msgs = Except.ok msgs := by
  induction msgs generalizing i with
  | nil => simp [sendAll]
  | cons m ms ih => simp [sendAll, ih]

theorem publish_velocity_fallible_none (linear_vel angular_vel duration : ℚ)
    (cancelAt : Option ℕ) :
    publish_velocity_fallible linear_vel angular_vel duration cancelAt none =
      Except.ok (publish_velocity linear_vel angular_vel duration cancelAt).1 := by
  simp [publish_velocity_fallible, publish_velocity, sendAll_none]

theorem user_interface_of_interrupted (mode : Mode) {inputs snd : List ConsoleInput}
    (h : get_test_parameters inputs = (CollectResult.interrupted, snd)) :
    user_interface mode inputs = [] := by
  rw [user_interface.eq_def]
  split
  · rfl
  · rename_i v d rest heq
    rw [h] at heq
    cases heq

theorem user_interface_of_accepted_nil (mode : Mode) {inputs : List ConsoleInput}
    {v d : ℚ} (h : get_test_parameters inputs = (CollectResult.accepted v d, [])) :
    user_interface mode inputs = (runSession mode v d none).1 := by
  rw [user_interface.eq_def]
  split
  · rename_i snd heq
    rw [h] at heq
    cases heq
  · rename_i v' d' rest heq
    rw [h] at heq
    injection heq with h1 h2
    injection h1 with hv hd
    subst hv; subst hd; subst h2
    rfl

theorem user_interface_of_accepted_cons (mode : Mode) {inputs rest2 : List ConsoleInput}
    {v d : ℚ} {ans : ConsoleInput}
    (h : get_test_parameters inputs = (CollectResult.accepted v d, ans :: rest2)) :
    user_interface mode inputs =
      (if isYes ans then (runSession mode v d none).1 ++ user_interface mode rest2
       else (runSession mode v d none).1) := by
  rw [user_interface.eq_def]
  split
  · rename_i snd heq
    rw [h] at heq
    cases heq
  · rename_i v' d' rest heq
    rw [h] at heq
    injection heq with h1 h2
    injection h1 with hv hd
    subst hv; subst hd; subst h2
    rfl

theorem user_interface_blocks (mode : Mode) (inputs : List ConsoleInput) :
    ∃ blocks : List (List Twist),
      user_interface mode inputs = blocks.flatten ∧
        ∀ b ∈ blocks, isSessionBlock mode b := by
  induction inputs using user_interface.induct mode with
  | case1 x snd h =>
      exact ⟨[], user_interface_of_interrupted mode h, by simp⟩
  | case2 x v d h h' =>
      refine ⟨[(runSession mode v d none).1], ?_, ?_⟩
      · rw [user_interface_of_accepted_nil mode h]
        simp
      · intro b hb
        simp only [List.mem_singleton] at hb
        subst hb
        exact ⟨loopCount d none, v, runSession_fst mode v d none⟩
  | case3 x v d ans rest2 h hyes h' ih =>
      obtain ⟨blocks, hjoin, hall⟩ := ih
      refine ⟨(runSession mode v d none).1 :: blocks, ?_, ?_⟩
      · rw [user_interface_of_accepted_cons mode h, if_pos hyes, hjoin]
        simp
      · intro b hb
        rcases List.mem_cons.mp hb with hb | hb
        · subst hb
          exact ⟨loopCount d none, v, runSession_fst mode v d none⟩
        · exact hall b hb
  | case4 x v d ans rest2 h hyes h' =>
      refine ⟨[(runSession mode v d none).1], ?_, ?_⟩
      · rw [user_interface_of_accepted_cons mode h, if_neg hyes]
        simp
      · intro b hb
        simp only [List.mem_singleton] at hb
        subst hb
        exact ⟨loopCount d none, v, runSession_fst mode v d none⟩

theorem get_test_parameters_accepted_pos (inputs : List ConsoleInput) (v d : ℚ)
    (rest : List ConsoleInput)
    (h : get_test_parameters inputs = (CollectResult.accepted v d, rest)) :
    0 < d := by
  induction inputs using get_test_parameters.induct with
  | case1 =>
      rw [get_test_parameters] at h
      cases h
  | case2 b r ih =>
      rw [get_test_parameters] at h
      exact ih h
  | case3 =>
      rw [get_test_parameters] at h
      cases h
  | case4 v' b r ih =>
      rw [get_test_parameters] at h
      exact ih h
  | case5 v' d' r hle ih =>
      rw [get_test_parameters, if_pos hle] at h
      exact ih h
  | case6 v' d' r hle =>
      rw [get_test_parameters, if_neg hle] at h
      injection h with h1 h2
      injection h1 with hv hd
      subst hd
      exact lt_of_not_le hle

/-- C1: corrected.  The claim says the stop-guarantee sequence runs on
every exit path of the publish loop, including an error raised by the
command channel.  `publish_velocity` wraps nothing in `try/finally`, so a
publish that raises propagates at once and `stop_robot` on line 66 is
never reached: a channel error at the very first publish of a 1-second
run exits with no message sent at all — in particular, no stop command. -/
theorem C1_counterexample :
    publish_velocity_fallible 1 0 1 none (some 0) = Except.error [] ∧
    (sentMessages (publish_velocity_fallible 1 0 1 none (some 0))).length = 0 := by
  have hn : loopCount 1 none = 10 := by norm_num [loopCount]
  have : publish_velocity_fallible 1 0 1 none (some 0) = Except.error [] := by
    rw [publish_velocity_fallible, hn]
    simp [List.replicate_succ, sendAll]
  exact ⟨this, by rw [this]; rfl⟩

/-- C1 amended: on every error-free exit of the publish loop — normal
completion and cancellation at any point — `publish_velocity` does send
the 5-command stop sequence last; and `main`'s `finally` block attempts
`stop_robot` on every process-termination path (normal, interrupt, fatal)
once the node exists.  A channel error during publish, however,
propagates without the in-call stop sequence. -/
theorem C1_stop_guarantee (lin ang dur : ℚ) (cancelAt : Option ℕ)
    (body : List Twist) (o : MainOutcome) :
    publish_velocity_fallible lin ang dur cancelAt none =
      Except.ok (List.replicate (loopCount dur cancelAt) (mkTwist lin ang) ++
        List.replicate 5 stop_msg) ∧
    List.IsSuffix (List.replicate 5 stop_msg) (main_run true body o) := by
  constructor
  · rw [publish_velocity_fallible_none]
    simp [publish_velocity, stop_robot]
  · refine ⟨body, ?_⟩
    simp [main_run, stop_robot]

/-- C2: confirmed.  `stop_robot` reads no node state: from any prior
state it publishes the same sequence of exactly 5 commands, each with all
six velocity components zero. -/
theorem C2_stop_robot_idempotent (st st' : NodeState) :
    stop_robot st = stop_robot st' ∧
    (stop_robot st).length = 5 ∧
    stop_robot st = List.replicate 5 stop_msg ∧
    stop_msg.linx = 0 ∧ stop_msg.liny = 0 ∧ stop_msg.linz = 0 ∧
    stop_msg.angx = 0 ∧ stop_msg.angy = 0 ∧ stop_msg.angz = 0 :=
  ⟨rfl, by simp [stop_robot], rfl, rfl, rfl, rfl, rfl, rfl, rfl⟩

/-- C3: confirmed.  The session maps linear mode to
`{linear: magnitude, angular: 0}` and angular mode to
`{linear: 0, angular: magnitude}`, and every tick of the session
publishes exactly that command. -/
theorem C3_session_command_mapping (mode : Mode) (m d : ℚ) (c : Option ℕ) :
    (sessionCommand Mode.linear m).linx = m ∧
    (sessionCommand Mode.linear m).angz = 0 ∧
    (sessionCommand Mode.angular m).linx = 0 ∧
    (sessionCommand Mode.angular m).angz = m ∧
    (runSession mode m d c).1.take (loopCount d c) =
      List.replicate (loopCount d c) (sessionCommand mode m) := by
  refine ⟨rfl, rfl, rfl, rfl, ?_⟩
  rw [runSession_fst]
  exact List.take_left' (List.length_replicate _ _)

/-- C4: confirmed.  The parameter collector drops a non-numeric magnitude
line, a non-numeric duration line, and any pair whose duration is ≤ 0,
re-prompting in each case with the rest of the input (no session is
started, no failure produced); every accepted result has a positive
duration, so only acceptance or an interrupt/end of input leaves the
loop. -/
theorem C4_collector_validation (v d vd dd : ℚ) (b : Bool)
    (rest inputs rest' : List ConsoleInput)
    (hd : d ≤ 0)
    (hacc : get_test_parameters inputs = (CollectResult.accepted vd dd, rest')) :
    get_test_parameters (ConsoleInput.text b :: rest) = get_test_parameters rest ∧
    get_test_parameters (ConsoleInput.num v :: ConsoleInput.text b :: rest) =
      get_test_parameters rest ∧
    get_test_parameters (ConsoleInput.num v :: ConsoleInput.num d :: rest) =
      get_test_parameters rest ∧
    0 < dd := by
  refine ⟨rfl, ?_, ?_, get_test_parameters_accepted_pos inputs vd dd rest' hacc⟩
  · cases rest <;> rfl
  · rw [get_test_parameters, if_pos hd]

theorem C4_witness :
    ((-1 : ℚ) ≤ 0) ∧
    get_test_parameters [ConsoleInput.num 3, ConsoleInput.num (5 / 2)] =
      (CollectResult.accepted 3 (5 / 2), []) ∧
    (get_test_parameters [ConsoleInput.text true] = get_test_parameters [] ∧
     get_test_parameters [ConsoleInput.num 7, ConsoleInput.text true] =
       get_test_parameters [] ∧
     get_test_parameters [ConsoleInput.num 7, ConsoleInput.num (-1)] =
       get_test_parameters [] ∧
     0 < (5 / 2 : ℚ)) := by
  have h1 : ((-1 : ℚ) ≤ 0) := by norm_num
  have h2 : get_test_parameters [ConsoleInput.num 3, ConsoleInput.num (5 / 2)] =
      (CollectResult.accepted 3 (5 / 2), []) := by
    rw [get_test_parameters, if_neg (by norm_num)]
  exact ⟨h1, h2, C4_collector_validation 7 (-1) 3 (5 / 2) true [] _ [] h1 h2⟩

/-- C5: corrected.  With the literal inputs `"abc"`, `"3.0"`, `"-1"`,
`"2.5"` the collector does not return `(3.0, 2.5)`: rejecting the
duration `-1` restarts the whole pair, so `"2.5"` is consumed as the
re-prompted magnitude and the collector is left awaiting a duration
(interrupt/end of input), not accepting. -/
theorem C5_counterexample :
    (get_test_parameters [ConsoleInput.text false, ConsoleInput.num 3,
        ConsoleInput.num (-1), ConsoleInput.num (5 / 2)]).1 =
      CollectResult.interrupted ∧
    (get_test_parameters [ConsoleInput.text false, ConsoleInput.num 3,
        ConsoleInput.num (-1), ConsoleInput.num (5 / 2)]).1 ≠
      CollectResult.accepted 3 (5 / 2) := by
  have h : get_test_parameters [ConsoleInput.text false, ConsoleInput.num 3,
      ConsoleInput.num (-1), ConsoleInput.num (5 / 2)] =
      (CollectResult.interrupted, []) := by
    rw [get_test_parameters, get_test_parameters, if_pos (by norm_num),
      get_test_parameters]
  rw [h]
  exact ⟨rfl, by simp⟩

/-- C5 amended: a rejected duration discards the magnitude as well — both
values are collected afresh.  Rejecting `"abc"` and then the pair
`(3.0, -1)`, the collector accepts a subsequently re-entered pair
`"3.0"`, `"2.5"` and returns `(3.0, 2.5)`. -/
theorem C5_collector_reprompts_pair :
    get_test_parameters [ConsoleInput.text false, ConsoleInput.num 3,
        ConsoleInput.num (-1), ConsoleInput.num 3, ConsoleInput.num (5 / 2)] =
      (CollectResult.accepted 3 (5 / 2), []) := by
  rw [get_test_parameters, get_test_parameters, if_pos (by norm_num),
    get_test_parameters, if_neg (by norm_num)]

/-- C6: corrected.  There is no Idle-state check anywhere: line 40 sets
`is_publishing := True` without inspecting it, and a call made while the
flag is already `True` (a session running) publishes its full command
sequence — 15 messages for a 1-second test — rather than returning an
error and sending nothing. -/
theorem C6_counterexample :
    ((publish_velocityS ⟨true, stop_msg⟩ 1 0 1 none).2.1).length = 15 ∧
    (publish_velocityS ⟨true, stop_msg⟩ 1 0 1 none).2.1 ≠ [] := by
  have hn : loopCount 1 none = 10 := by norm_num [loopCount]
  constructor
  · simp [publish_velocityS, publish_velocity, stop_robot, hn]
  · simp [publish_velocityS, publish_velocity, stop_robot, hn]

/-- C6 amended: the code returns no `AlreadyRunning` error —
`publish_velocity` behaves identically whatever the prior
`is_publishing` state — and overlap is instead prevented structurally:
`user_interface` joins each session's worker before prompting again, so
the published stream is a concatenation of disjoint, complete session
blocks (each ending with its stop sequence) and no start ever observes a
running session. -/
theorem C6_no_overlapping_sessions (st : NodeState) (lin ang dur : ℚ)
    (c : Option ℕ) (mode : Mode) (inputs : List ConsoleInput) :
    (publish_velocityS st lin ang dur c).2 =
      (publish_velocityS ⟨false, stop_msg⟩ lin ang dur c).2 ∧
    ∃ blocks : List (List Twist),
      user_interface mode inputs = blocks.flatten ∧
        ∀ b ∈ blocks, isSessionBlock mode b :=
  ⟨rfl, user_interface_blocks mode inputs⟩

/-- C7: corrected.  A cancellation mid-loop stops the ticks early: a
2-second run cancelled at the third check publishes only 3 ticks, fewer
than `⌊2 * 10⌋ = 20` — the at-least-`⌊duration·10⌋` bound cannot hold on
the cancellation exit path.  (The 5 stop commands do still follow.) -/
theorem C7_counterexample :
    (publish_velocity (1 / 2) 0 2 (some 3)).1 =
      List.replicate 3 (mkTwist (1 / 2) 0) ++ List.replicate 5 stop_msg ∧
    ¬ (⌊(2 : ℚ) * 10⌋₊ ≤ 3) := by
  have hn : loopCount 2 (some 3) = 3 := by norm_num [loopCount]
  constructor
  · simp [publish_velocity, stop_robot, hn]
  · norm_num

/-- C7 amended: an uncancelled error-free run of duration > 0 publishes
`⌈duration · 10⌉ ≥ ⌊duration · 10⌋ ≥ 1` ticks; on every error-free exit
path — any cancellation point included — the messages after the ticks
are exactly the 5 stop commands. -/
theorem C7_tick_and_stop_counts (lin ang dur : ℚ) (c : Option ℕ)
    (hd : 0 < dur) :
    loopCount dur none = ⌈dur * 10⌉₊ ∧
    ⌊dur * 10⌋₊ ≤ loopCount dur none ∧
    1 ≤ loopCount dur none ∧
    (publish_velocity lin ang dur c).1 =
      List.replicate (loopCount dur c) (mkTwist lin ang) ++
        List.replicate 5 stop_msg ∧
    (publish_velocity lin ang dur c).1.drop (loopCount dur c) =
      List.replicate 5 stop_msg := by
  refine ⟨rfl, Nat.floor_le_ceil _, ?_, ?_, ?_⟩
  · have : (0 : ℚ) < dur * 10 := by nlinarith
    simpa [loopCount, Nat.lt_iff_add_one_le] using Nat.ceil_pos.mpr this
  · simp [publish_velocity, stop_robot]
  · rw [publish_velocity]
    simp only []
    rw [stop_robot]
    exact List.drop_left' (List.length_replicate _ _)

theorem C7_witness :
    (0 : ℚ) < 2 ∧
    (loopCount 2 none = ⌈(2 : ℚ) * 10⌉₊ ∧
     ⌊(2 : ℚ) * 10⌋₊ ≤ loopCount 2 none ∧
     1 ≤ loopCount 2 none ∧
     (publish_velocity (1 / 2) 0 2 (some 3)).1 =
       List.replicate (loopCount 2 (some 3)) (mkTwist (1 / 2) 0) ++
         List.replicate 5 stop_msg ∧
     (publish_velocity (1 / 2) 0 2 (some 3)).1.drop (loopCount 2 (some 3)) =
       List.replicate 5 stop_msg) :=
  ⟨by norm_num, C7_tick_and_stop_counts (1 / 2) 0 2 (some 3) (by norm_num)⟩

/-- C8: corrected.  `publish_velocity` returns `None`; the measured
elapsed time is printed, and it is read after `stop_robot`, so it
includes the stop sequence's 5 × 0.1 s.  For a 1-second run the printed
elapsed is 1.5 s, which is not within one tick (0.1 s) of the requested
duration. -/
theorem C8_counterexample :
    (publish_velocity 1 0 1 none).2 = 3 / 2 ∧
    ¬ |(publish_velocity 1 0 1 none).2 - 1| ≤ 1 / 10 := by
  have hn : loopCount 1 none = 10 := by norm_num [loopCount]

  constructor
  · simp [publish_velocity, hn]
    norm_num
  · simp [publish_velocity, hn]
    rw [abs_of_nonneg (by norm_num)]
    norm_num

/-- C8 amended: the loop itself does run to within one tick of the
requested duration — `duration ≤ n/10 < duration + 0.1` for the tick
count `n` — but the elapsed value the node reports (printed, not
returned) is read after the stop sequence and equals `n/10 + 0.5`. -/
theorem C8_elapsed_reported (lin ang dur : ℚ) (hd : 0 < dur) :
    dur ≤ (loopCount dur none : ℚ) * (1 / 10) ∧
    (loopCount dur none : ℚ) * (1 / 10) < dur + 1 / 10 ∧
    (publish_velocity lin ang dur none).2 =
      (loopCount dur none : ℚ) * (1 / 10) + 5 * (1 / 10) := by
  have hle : dur * 10 ≤ (⌈dur * 10⌉₊ : ℚ) := Nat.le_ceil _
  have hlt : (⌈dur * 10⌉₊ : ℚ) < dur * 10 + 1 :=
    Nat.ceil_lt_add_one (by nlinarith)
  refine ⟨?_, ?_, rfl⟩
  · simp only [loopCount]
    nlinarith
  · simp only [loopCount]
    nlinarith

theorem C8_witness :
    (0 : ℚ) < 1 ∧
    ((1 : ℚ) ≤ (loopCount 1 none : ℚ) * (1 / 10) ∧
     (loopCount 1 none : ℚ) * (1 / 10) < 1 + 1 / 10 ∧
     (publish_velocity 1 0 1 none).2 =
       (loopCount 1 none : ℚ) * (1 / 10) + 5 * (1 / 10)) :=
  ⟨by norm_num, C8_elapsed_reported 1 0 1 (by norm_num)⟩

/-- C9: corrected.  Validation accepts a zero magnitude (`float()`
parses `0`, and only the duration is sign-checked), and a session run
with magnitude 0 publishes ticks whose linear and angular components are
both zero — so "exactly one component non-zero" fails for such session
ticks, and all-zero messages are not only stop commands. -/
theorem C9_counterexample :
    get_test_parameters [ConsoleInput.num 0, ConsoleInput.num 1] =
      (CollectResult.accepted 0 1, []) ∧
    (runSession Mode.linear 0 1 none).1.head? =
      some (sessionCommand Mode.linear 0) ∧
    ¬ exactlyOneNZ (sessionCommand Mode.linear 0) := by
  have hn : loopCount 1 none = 10 := by norm_num [loopCount]
  refine ⟨?_, ?_, ?_⟩
  · rw [get_test_parameters, if_neg (by norm_num)]
  · rw [runSession_fst, hn]
    simp [List.replicate_succ]
  · simp [exactlyOneNZ, sessionCommand, mkTwist]

/-- C9 amended: every session tick has at most one of the two components
non-zero (the one the mode does not drive is always 0), with exactly one
non-zero whenever the magnitude is non-zero; stop commands always have
both components zero. -/
theorem C9_mode_exclusivity (mode : Mode) (m d : ℚ) (c : Option ℕ)
    (st : NodeState) :
    atMostOneNZ (sessionCommand mode m) ∧
    (m ≠ 0 → exactlyOneNZ (sessionCommand mode m)) ∧
    (runSession mode m d c).1.take (loopCount d c) =
      List.replicate (loopCount d c) (sessionCommand mode m) ∧
    ∀ s ∈ stop_robot st, s.linx = 0 ∧ s.angz = 0 := by
  refine ⟨?_, ?_, ?_, ?_⟩
  · cases mode <;> simp [atMostOneNZ, sessionCommand, mkTwist]
  · intro hm
    cases mode <;> simp [exactlyOneNZ, sessionCommand, mkTwist, hm]
  · rw [runSession_fst]
    exact List.take_left' (List.length_replicate _ _)
  · intro s hs
    rw [stop_robot] at hs
    rw [List.eq_of_mem_replicate hs]
    exact ⟨rfl, rfl⟩

/-- C10: confirmed.  Every message the program ever publishes — session
ticks, per-session stop sequences, and the final `stop_robot` from
`main`'s `finally` — has `linear.y`, `linear.z`, `angular.x` and
`angular.y` equal to 0; only `linear.x` and `angular.z` ever carry a
non-zero value. -/
theorem C10_only_planar_fields (mode : Mode) (inputs : List ConsoleInput)
    (o : MainOutcome) (t : Twist)
    (ht : t ∈ main_run true (user_interface mode inputs) o) :
    t.liny = 0 ∧ t.linz = 0 ∧ t.angx = 0 ∧ t.angy = 0 := by
  rw [main_run] at ht
  simp only [if_true] at ht
  rcases List.mem_append.mp ht with hui | hstop
  · obtain ⟨blocks, hjoin, hall⟩ := user_interface_blocks mode inputs
    rw [hjoin] at hui
    obtain ⟨b, hb, htb⟩ := List.mem_flatten.mp hui
    obtain ⟨n, m, hbm⟩ := hall b hb
    rw [hbm] at htb
    rcases List.mem_append.mp htb with hrep | hrep
    · rw [List.eq_of_mem_replicate hrep]
      cases mode <;> exact ⟨rfl, rfl, rfl, rfl⟩
    · rw [List.eq_of_mem_replicate hrep]
      exact ⟨rfl, rfl, rfl, rfl⟩
  · rw [stop_robot] at hstop
    rw [List.eq_of_mem_replicate hstop]
    exact ⟨rfl, rfl, rfl, rfl⟩

theorem C10_witness :
    mkTwist 1 0 ∈ main_run true
      (user_interface Mode.linear [ConsoleInput.num 1, ConsoleInput.num 1])
      MainOutcome.normal ∧
    ((mkTwist 1 0).liny = 0 ∧ (mkTwist 1 0).linz = 0 ∧
     (mkTwist 1 0).angx = 0 ∧ (mkTwist 1 0).angy = 0) := by
  have hacc : get_test_parameters [ConsoleInput.num 1, ConsoleInput.num 1] =
      (CollectResult.accepted 1 1, []) := by
    rw [get_test_parameters, if_neg (by norm_num)]
  have hmem : mkTwist 1 0 ∈ main_run true
      (user_interface Mode.linear [ConsoleInput.num 1, ConsoleInput.num 1])
      MainOutcome.normal := by
    rw [main_run, if_pos rfl, user_interface_of_accepted_nil Mode.linear hacc,
      runSession_fst]
    have hn : loopCount 1 none = 10 := by norm_num [loopCount]
    rw [hn]
    simp [sessionCommand, List.mem_replicate]
  exact ⟨hmem, C10_only_planar_fields Mode.linear
    [ConsoleInput.num 1, ConsoleInput.num 1] MainOutcome.normal (mkTwist 1 0) hmem⟩

end VelocityTest
